import Mathlib

/-!
Verification of the debt-manager projection engine.

The definitions below are a shallow embedding of the numerical core of the
repository (`src/utils/calculations.ts`): the rate/payment solvers, balance
reconstruction, single-debt projection, the independent aggregator, and the
two multi-debt strategy simulators.  JavaScript numbers are modelled by exact
rationals (`ℚ`), JS `Date` values by a year/month/day record, and the
`new Date()` ambient clock by an explicit `today` parameter.  Option types
model optional fields; JS truthiness tests on numbers (`!x`, `x && _`) are
modelled as `x ≠ 0` tests on the carried value.
-/

namespace DebtManager

/-- Calendar date (year, month 1–12, day 1–31), standing in for JS `Date`. -/
structure SDate where
  year : Int
  month : Int
  day : Int
deriving DecidableEq, Repr

/-- JS `Date` order (`a <= b` on timestamps) as lexicographic year/month/day order. -/
def SDate.le (a b : SDate) : Bool :=
  decide (a.year < b.year ∨ (a.year = b.year ∧
    (a.month < b.month ∨ (a.month = b.month ∧ a.day ≤ b.day))))

/-- JS `Date` strict order (`a < b` on timestamps). -/
def SDate.lt (a b : SDate) : Bool :=
  decide (a.year < b.year ∨ (a.year = b.year ∧
    (a.month < b.month ∨ (a.month = b.month ∧ a.day < b.day))))

/-- Gregorian leap-year rule. -/
def isLeapYear (y : Int) : Bool :=
  decide (y % 4 = 0 ∧ (y % 100 ≠ 0 ∨ y % 400 = 0))

/-- Number of days in a month (used by `addMonths` to clamp the day). -/
def daysInMonth (y m : Int) : Int :=
  if m = 2 then (if isLeapYear y then 29 else 28)
  else if m = 4 ∨ m = 6 ∨ m = 9 ∨ m = 11 then 30
  else 31

/-- The `date-fns` `addMonths`: shift the month, clamping the day-of-month. -/
def SDate.addMonths (d : SDate) (n : Int) : SDate :=
  let t := d.year * 12 + (d.month - 1) + n
  let y := t.fdiv 12
  let m := t.fmod 12 + 1
  ⟨y, m, min d.day (daysInMonth y m)⟩

/-- A debt record as stored by the app (`Debt` in `types/index.ts`).
`monthlyPayment` is optional; `includeInTotal` is an optional flag. -/
structure Debt where
  id : String
  totalAmount : ℚ
  currentAmount : ℚ
  interestRate : ℚ
  dateStarted : SDate
  monthlyPayment : Option ℚ
  duration : Option ℚ
  includeInTotal : Option Bool
deriving DecidableEq, Repr

/-- One month of a projection (`DebtProjection` in `types/index.ts`). -/
structure DebtProjection where
  month : Nat
  date : SDate
  remainingDebt : ℚ
  totalPaid : ℚ
  interestPaid : ℚ
deriving DecidableEq, Repr

/-- JS truthiness of the optional `monthlyPayment` field (`debt.monthlyPayment`
used as a boolean): present and non-zero. -/
def truthyPayment (p : Option ℚ) : Bool :=
  match p with
  | none => false
  | some x => decide (x ≠ 0)

/-- JS `debt.includeInTotal !== false`. -/
def isIncluded (d : Debt) : Bool :=
  decide (d.includeInTotal ≠ some false)

/-- The domain sentinel: an interest rate of exactly 1.2 means 0% APR
(`debt.interestRate === 1.2 ? 0 : debt.interestRate`). -/
def adjustRate (r : ℚ) : ℚ :=
  if r = 1.2 then 0 else r

/-- Rewrites the 1.2 sentinel rate to a literal 0, leaving other debts alone.
Used to state the claimed 1.2-behaves-as-0 equivalences. -/
def zeroSentinel (d : Debt) : Debt :=
  if d.interestRate = 1.2 then { d with interestRate := 0 } else d

/-!  Amortization math (`calculateMonthlyPayment`, `calculateInterestRate`). -/

/-- Closed-form amortizing-loan payment (`calculateMonthlyPayment`).
`isFinite` is identically true over `ℚ`, so the final JS guard reduces to the
positivity test. -/
def calculateMonthlyPayment (principal annualInterestRate : ℚ) (durationMonths : Nat) : ℚ :=
  if principal ≤ 0 ∨ durationMonths = 0 then 0
  else if annualInterestRate = 0 then principal / durationMonths
  else
    let monthlyRate := annualInterestRate / 100 / 12
    if monthlyRate < 1 / 10 ^ 10 then principal / durationMonths
    else
      let factor := (1 + monthlyRate) ^ durationMonths
      if factor - 1 < 1 / 10 ^ 10 then principal / durationMonths
      else
        let monthlyPayment := principal * (monthlyRate * factor) / (factor - 1)
        if 0 < monthlyPayment then monthlyPayment else principal / durationMonths

/-- Newton–Raphson loop of `calculateInterestRate`; `fuel` is the remaining
iteration budget (100 at the top-level call).  Each iteration mirrors the
source: floor a non-positive rate at 0.001, test the payment residual against
1e-8, stop on a near-singular derivative (< 1e-12), clamp the next iterate
into (0, 1]. -/
def interestRateLoop (loanAmount monthlyPayment : ℚ) (durationMonths : Nat)
    (monthlyRate : ℚ) : Nat → ℚ
  | 0 => monthlyRate * 12 * 100
  | fuel + 1 =>
    let r := if monthlyRate ≤ 0 then 1 / 1000 else monthlyRate
    let factor := (1 + r) ^ durationMonths
    let calculatedPayment := loanAmount * (r * factor) / (factor - 1)
    if |calculatedPayment - monthlyPayment| < 1 / 10 ^ 8 then r * 12 * 100
    else
      let numerator := r * factor
      let denominator := factor - 1
      let dPdr := loanAmount * ((factor * (1 + r * durationMonths)) / denominator -
        (numerator * factor * durationMonths) / (denominator * denominator))
      if |dPdr| < 1 / 10 ^ 12 then r * 12 * 100
      else
        let r1 := r - (calculatedPayment - monthlyPayment) / dPdr
        let r2 := if r1 < 0 then 1 / 1000 else r1
        let r3 := if 1 < r2 then 1 / 2 else r2
        interestRateLoop loanAmount monthlyPayment durationMonths r3 fuel

/-- Iterative rate solver (`calculateInterestRate`): Newton–Raphson from a 1%
monthly guess, at most 100 iterations, result scaled to an annual percentage. -/
def calculateInterestRate (loanAmount monthlyPayment : ℚ) (durationMonths : Nat) : ℚ :=
  interestRateLoop loanAmount monthlyPayment durationMonths (1 / 100) 100

/-!  Balance reconstruction (`calculateCurrentBalance`). -/

/-- Whole months elapsed from `start` to `today`
(calendar month difference, minus one when today's day-of-month precedes the
start's), floored at 0. -/
def monthsElapsed (today start : SDate) : Int :=
  max 0 ((today.year - start.year) * 12 + (today.month - start.month) +
    (if start.day ≤ today.day then 0 else -1))

/-- Result record of `calculateCurrentBalance`. -/
structure BalanceResult where
  currentBalance : ℚ
  totalPaid : ℚ
  interestPaid : ℚ
  monthsElapsed : Nat
deriving DecidableEq, Repr

/-- Payment-history simulation loop of `calculateCurrentBalance`: step at most
`fuel` (= monthsElapsed) months, stopping once the balance is ≤ 0.01 or the
payment no longer covers interest.  State is (balance, totalPaid, interestPaid). -/
def ccbLoop (payment monthlyRate : ℚ) : Nat → ℚ × ℚ × ℚ → ℚ × ℚ × ℚ
  | 0, s => s
  | fuel + 1, (bal, paid, interest) =>
    if 0.01 < bal then
      let interestPayment := bal * monthlyRate
      let principalPayment := min (payment - interestPayment) bal
      if principalPayment ≤ 0 then (bal, paid, interest)
      else ccbLoop payment monthlyRate fuel
        (bal - principalPayment, paid + payment, interest + interestPayment)
    else (bal, paid, interest)

/-- Reconstruct a debt's current balance from its start date
(`calculateCurrentBalance`). -/
def calculateCurrentBalance (today : SDate) (debt : Debt) : BalanceResult :=
  let monthlyRate := adjustRate debt.interestRate / 100 / 12
  let elapsed := monthsElapsed today debt.dateStarted
  if ¬ truthyPayment debt.monthlyPayment ∨ elapsed ≤ 0 then
    ⟨debt.totalAmount, 0, 0, 0⟩
  else
    let s := ccbLoop (debt.monthlyPayment.getD 0) monthlyRate elapsed.toNat
      (debt.totalAmount, 0, 0)
    ⟨max 0 s.1, s.2.1, s.2.2, elapsed.toNat⟩

/-!  Single-debt forward projection (`calculateDebtProjection`). -/

/-- The projection's starting balance: the manual `currentAmount` override when
it differs from `totalAmount`, else the reconstructed balance. -/
def startingBalance (today : SDate) (debt : Debt) : ℚ :=
  if debt.currentAmount ≠ debt.totalAmount then debt.currentAmount
  else (calculateCurrentBalance today debt).currentBalance

/-- Forward-projection loop of `calculateDebtProjection`.  `fuel` is
600 − monthCount; a month is appended only after its balance is advanced, the
loop breaks (returning what was built) the moment the principal portion is
≤ 0, and stops just after pushing a month whose balance fell below 0.01. -/
def cdpLoop (payment monthlyRate : ℚ) : Nat → SDate → Nat → ℚ → ℚ → ℚ → List DebtProjection
  | 0, _, _, _, _, _ => []
  | fuel + 1, currentDate, monthCount, bal, paid, interest =>
    if 0.01 < bal then
      let interestPayment := bal * monthlyRate
      let principalPayment := min (payment - interestPayment) bal
      if principalPayment ≤ 0 then []
      else
        let bal1 := bal - principalPayment
        let paid1 := paid + payment
        let interest1 := interest + interestPayment
        let date1 := currentDate.addMonths 1
        let entry : DebtProjection := ⟨monthCount + 1, date1, max 0 bal1, paid1, interest1⟩
        if bal1 < 0.01 then [entry]
        else entry :: cdpLoop payment monthlyRate fuel date1 (monthCount + 1) bal1 paid1 interest1
    else []

/-- Project a single debt forward from today to payoff
(`calculateDebtProjection`), capped at 600 months. -/
def calculateDebtProjection (today : SDate) (debt : Debt) : List DebtProjection :=
  let monthlyRate := adjustRate debt.interestRate / 100 / 12
  if ¬ truthyPayment debt.monthlyPayment then []
  else
    cdpLoop (debt.monthlyPayment.getD 0) monthlyRate 600 today 0
      (startingBalance today debt) 0 0

/-!  Independent multi-debt aggregation (`calculateTotalDebtProjection`). -/

/-- The debts taking part in aggregate computations
(`debts.filter(debt => debt.includeInTotal !== false)`). -/
def includedList (debts : List Debt) : List Debt :=
  debts.filter isIncluded

/-- One debt's contribution to one aggregate month: add month `m` of its own
projection when it exists, update the per-debt final totals; once the
projection is shorter than `m`, re-add the debt's last recorded totals
(read from the `debtFinalTotals` map, threaded as `String → Option (ℚ × ℚ)`). -/
def aggStep (today : SDate) (m : Nat) (acc : ℚ × ℚ × ℚ × (String → Option (ℚ × ℚ)))
    (d : Debt) : ℚ × ℚ × ℚ × (String → Option (ℚ × ℚ)) :=
  let (rem, paid, interest, finals) := acc
  let projection := calculateDebtProjection today d
  match projection.get? (m - 1) with
  | some monthData =>
    (rem + monthData.remainingDebt, paid + monthData.totalPaid,
     interest + monthData.interestPaid,
     fun k => if k = d.id then some (monthData.totalPaid, monthData.interestPaid) else finals k)
  | none =>
    match finals d.id with
    | some finalTotals => (rem, paid + finalTotals.1, interest + finalTotals.2, finals)
    | none => (rem, paid, interest, finals)

/-- Month loop of `calculateTotalDebtProjection`: months `m, m+1, …` for `fuel`
iterations (fuel = maxMonths at the top), emitting the summed month and
stopping just after a month whose aggregate remaining balance is exactly 0. -/
def aggLoop (today : SDate) (debts : List Debt) :
    Nat → Nat → (String → Option (ℚ × ℚ)) → List DebtProjection
  | 0, _, _ => []
  | fuel + 1, m, finals =>
    let s := debts.foldl (aggStep today m) (0, 0, 0, finals)
    let entry : DebtProjection := ⟨m, today.addMonths (m - 1), s.1, s.2.1, s.2.2.1⟩
    if s.1 = 0 then [entry]
    else entry :: aggLoop today debts fuel (m + 1) s.2.2.2

/-- Portfolio-level aggregation of independent projections
(`calculateTotalDebtProjection`). -/
def calculateTotalDebtProjection (today : SDate) (debts : List Debt) : List DebtProjection :=
  let includedDebts := includedList debts
  if includedDebts.isEmpty then []
  else
    let maxMonths :=
      (includedDebts.map (fun d => (calculateDebtProjection today d).length)).foldl max 0
    aggLoop today includedDebts maxMonths 1 (fun _ => none)

/-!  Ordering strategies and stable sorting.

JS `Array.prototype.sort` is stable; every comparator in the source is of the
form `(a, b) => key(a) - key(b)` (ascending) or `(a, b) => key(b) - key(a)`
(descending) for a rational key, which we model with Mathlib's stable
`List.insertionSort` on the corresponding total preorder. -/

/-- Ascending order on a rational key. -/
def ratKeyLe {α : Type} (f : α → ℚ) (a b : α) : Prop := f a ≤ f b

instance {α : Type} (f : α → ℚ) : DecidableRel (ratKeyLe f) :=
  fun a b => inferInstanceAs (Decidable (f a ≤ f b))

instance {α : Type} (f : α → ℚ) : IsTotal α (ratKeyLe f) :=
  ⟨fun a b => le_total (f a) (f b)⟩

instance {α : Type} (f : α → ℚ) : IsTrans α (ratKeyLe f) :=
  ⟨fun _ _ _ hab hbc => le_trans hab hbc⟩

/-- Descending order on a rational key. -/
def ratKeyGe {α : Type} (f : α → ℚ) (a b : α) : Prop := f b ≤ f a

instance {α : Type} (f : α → ℚ) : DecidableRel (ratKeyGe f) :=
  fun a b => inferInstanceAs (Decidable (f b ≤ f a))

instance {α : Type} (f : α → ℚ) : IsTotal α (ratKeyGe f) :=
  ⟨fun a b => le_total (f b) (f a)⟩

instance {α : Type} (f : α → ℚ) : IsTrans α (ratKeyGe f) :=
  ⟨fun _ _ _ hab hbc => le_trans hbc hab⟩

/-- Stable ascending sort by a rational key (JS `sort((a, b) => f(a) - f(b))`). -/
def sortByKey {α : Type} (f : α → ℚ) (l : List α) : List α :=
  List.insertionSort (ratKeyLe f) l

/-- Stable descending sort by a rational key (JS `sort((a, b) => f(b) - f(a))`). -/
def sortByKeyDesc {α : Type} (f : α → ℚ) (l : List α) : List α :=
  List.insertionSort (ratKeyGe f) l

/-- The four named payoff strategies (`PaymentStrategy`). -/
inductive PaymentStrategy where
  | snowball
  | avalanche
  | cashflow
  | smart
deriving DecidableEq, Repr

/-!  Fixed-cohort strategy simulator (`calculateSnowballProjection`). -/

/-- Per-run working copy of a debt in the fixed-cohort simulator
(`{ ...debt, currentBalance }`; only the fields the simulation reads are kept). -/
structure SBDebt where
  id : String
  interestRate : ℚ
  monthlyPayment : Option ℚ
  currentBalance : ℚ
deriving DecidableEq, Repr

/-- Build the working copy of one debt, with its reconstructed current balance. -/
def mkSBDebt (today : SDate) (d : Debt) : SBDebt :=
  ⟨d.id, d.interestRate, d.monthlyPayment, (calculateCurrentBalance today d).currentBalance⟩

/-- The fixed cohort: included debts with a positive payment and a current
balance above 0.01. -/
def snowballCohort (today : SDate) (debts : List Debt) : List SBDebt :=
  let includedDebts := debts.filter
    (fun d => isIncluded d && decide (0 < d.monthlyPayment.getD 0))
  (includedDebts.map (mkSBDebt today)).filter (fun d => decide (0.01 < d.currentBalance))

/-- The one-time strategy sort of the fixed-cohort simulator. -/
def sortByStrategy (strategy : PaymentStrategy) (interestThreshold : ℚ)
    (debtBalances : List SBDebt) : List SBDebt :=
  match strategy with
  | .snowball => sortByKey (fun d => d.currentBalance) debtBalances
  | .avalanche => sortByKeyDesc (fun d => d.interestRate) debtBalances
  | .cashflow => sortByKeyDesc (fun d => d.monthlyPayment.getD 0) debtBalances
  | .smart =>
    let highInterest := debtBalances.filter (fun d => decide (interestThreshold ≤ d.interestRate))
    let lowInterest := debtBalances.filter (fun d => decide (d.interestRate < interestThreshold))
    sortByKeyDesc (fun d => d.interestRate) highInterest ++
      sortByKey (fun d => d.currentBalance) lowInterest

/-- Budget determination shared by both simulators
(`budget && budget > minimumPayments ? budget : minimumPayments`; a missing or
zero budget is falsy in JS). -/
def pickBudget (totalMonthlyBudget : Option ℚ) (minimumPayments : ℚ) : ℚ :=
  match totalMonthlyBudget with
  | none => minimumPayments
  | some b => if b ≠ 0 ∧ minimumPayments < b then b else minimumPayments

/-- Sum of the stated minimum payments of the cohort. -/
def snowballMinPayments (debtBalances : List SBDebt) : ℚ :=
  (debtBalances.map (fun d => d.monthlyPayment.getD 0)).sum

/-- One debt's slice of a simulated month in the fixed-cohort simulator.
NOTE the source computes this month's interest from the raw
`debt.interestRate` (no 1.2 sentinel here).  The focused debt sees the whole
remaining budget, the others at most their own payment.  No progress is made
(and no budget consumed) when the principal portion is ≤ 0; a balance left at
≤ 0.01 is snapped to 0. -/
def snowStep (focused : Bool) (left : ℚ) (d : SBDebt) : SBDebt × ℚ × ℚ × ℚ × ℚ :=
  let monthlyRate := d.interestRate / 100 / 12
  let interestPayment := d.currentBalance * monthlyRate
  let availablePayment := if focused then left else min (d.monthlyPayment.getD 0) left
  let principalPayment := min (availablePayment - interestPayment) d.currentBalance
  if principalPayment ≤ 0 then (d, left, d.currentBalance, 0, 0)
  else
    let bal1 := d.currentBalance - principalPayment
    let bal2 := if bal1 ≤ 0.01 then 0 else bal1
    ({ d with currentBalance := bal2 }, left - (principalPayment + interestPayment),
     bal2, principalPayment + interestPayment, interestPayment)

/-- One simulated month over the whole (ordered) cohort: thread the remaining
budget debt by debt, focusing the first debt.  Returns the updated debts (same
order), the leftover budget, and this month's remaining/paid/interest sums. -/
def snowMonth (focused : Bool) (l : List SBDebt) (left : ℚ) : List SBDebt × ℚ × ℚ × ℚ × ℚ :=
  match l with
  | [] => ([], left, 0, 0, 0)
  | d :: rest =>
    let s := snowStep focused left d
    let r := snowMonth false rest s.2.1
    (s.1 :: r.1, r.2.1, s.2.2.1 + r.2.2.1, s.2.2.2.1 + r.2.2.2.1, s.2.2.2.2 + r.2.2.2.2)

/-- Month-to-month cohort update: process a month, then drop paid-off debts
(balance ≤ 0.01). -/
def snowAdvance (budget : ℚ) (l : List SBDebt) : List SBDebt :=
  (snowMonth true l budget).1.filter (fun d => decide (0.01 < d.currentBalance))

/-- Simulation loop of `calculateSnowballProjection`: run months while debts
remain, up to the 600-month cap (`fuel` = 601 − month). -/
def snowLoop (budget : ℚ) (today : SDate) :
    Nat → Nat → List SBDebt → ℚ → ℚ → List DebtProjection
  | 0, _, _, _, _ => []
  | fuel + 1, month, remainingDebts, paidSoFar, interestSoFar =>
    if remainingDebts.isEmpty then []
    else
      let r := snowMonth true remainingDebts budget
      let paid1 := paidSoFar + r.2.2.2.1
      let interest1 := interestSoFar + r.2.2.2.2
      (⟨month, today.addMonths (month - 1), r.2.2.1, paid1, interest1⟩ : DebtProjection) ::
        snowLoop budget today fuel (month + 1) (snowAdvance budget remainingDebts) paid1 interest1

/-- Fixed-cohort strategy simulator (`calculateSnowballProjection`): sort the
cohort once by the chosen strategy, then allocate a shared monthly budget,
focused debt first, for at most 600 months. -/
def calculateSnowballProjection (today : SDate) (debts : List Debt)
    (totalMonthlyBudget : Option ℚ) (strategy : PaymentStrategy)
    (interestThreshold : ℚ) : List DebtProjection :=
  let debtBalances := snowballCohort today debts
  if debtBalances.isEmpty then []
  else
    let sorted := sortByStrategy strategy interestThreshold debtBalances
    let totalMonthlyPayment := pickBudget totalMonthlyBudget (snowballMinPayments sorted)
    snowLoop totalMonthlyPayment today 600 1 sorted 0 0

/-!  Staggered-activation simulator (`calculateCompleteDebtTimeline`).

The source mutates per-run `debtStates` objects through the alias held by the
filtered-and-sorted `activeDebts` array; we model this with positional
indices: the active sublist carries each state's index in `debtStates`, and
the allocation's updates are written back by index. -/

/-- Per-run simulation state of one debt in the timeline simulator
(`{ ...debt, remainingBalance, totalPaid, interestPaid, startDate, isActive }`). -/
structure TLState where
  debt : Debt
  remainingBalance : ℚ
  totalPaid : ℚ
  interestPaid : ℚ
  isActive : Bool
deriving DecidableEq, Repr

/-- Initial timeline state of a debt: full `totalAmount` owed, inactive. -/
def mkTLState (d : Debt) : TLState :=
  ⟨d, d.totalAmount, 0, 0, false⟩

/-- Activation check run on every state each month
(`if (currentDate >= debt.startDate) debt.isActive = true`). -/
def tlActivate (currentDate : SDate) (s : TLState) : TLState :=
  if SDate.le s.debt.dateStarted currentDate then { s with isActive := true } else s

/-- Active-debt test: activated, balance above 0.01, truthy monthly payment. -/
def tlActivePred (s : TLState) : Bool :=
  s.isActive && decide (0.01 < s.remainingBalance) && truthyPayment s.debt.monthlyPayment

/-- The month's active debts, tagged with their index in `debtStates`. -/
def tlActiveOf (states : List TLState) : List (Nat × TLState) :=
  states.enum.filter (fun p => tlActivePred p.2)

/-- Sum of the active debts' stated minimum payments. -/
def tlMinPayments (active : List (Nat × TLState)) : ℚ :=
  (active.map (fun p => p.2.debt.monthlyPayment.getD 0)).sum

/-- Monthly re-sort of the active set by the chosen strategy. -/
def tlSort (strategy : PaymentStrategy) (interestThreshold : ℚ)
    (active : List (Nat × TLState)) : List (Nat × TLState) :=
  match strategy with
  | .snowball => sortByKey (fun p => p.2.remainingBalance) active
  | .avalanche => sortByKeyDesc (fun p => p.2.debt.interestRate) active
  | .cashflow => sortByKeyDesc (fun p => p.2.debt.monthlyPayment.getD 0) active
  | .smart =>
    let highInterestActive := active.filter
      (fun p => decide (interestThreshold ≤ p.2.debt.interestRate))
    let lowInterestActive := active.filter
      (fun p => decide (p.2.debt.interestRate < interestThreshold))
    sortByKeyDesc (fun p => p.2.debt.interestRate) highInterestActive ++
      sortByKey (fun p => p.2.remainingBalance) lowInterestActive

/-- The strategy-ordered list a timeline month allocates over. -/
def tlMonthList (strategy : PaymentStrategy) (interestThreshold : ℚ)
    (states : List TLState) : List (Nat × TLState) :=
  tlSort strategy interestThreshold (tlActiveOf states)

/-- One debt's slice of a timeline month under a strategy: interest from the
1.2-sentinel-adjusted rate, the focused debt seeing the whole remaining
budget, the others at most their own payment; progress only when the
principal portion is positive; balance below 0.01 snapped to 0. -/
def tlAllocStep (focused : Bool) (left : ℚ) (s : TLState) : TLState × ℚ :=
  let monthlyRate := adjustRate s.debt.interestRate / 100 / 12
  let interestPayment := s.remainingBalance * monthlyRate
  let availablePayment := if focused then left else min (s.debt.monthlyPayment.getD 0) left
  let principalPayment := min (availablePayment - interestPayment) s.remainingBalance
  if 0 < principalPayment then
    let bal1 := s.remainingBalance - principalPayment
    let bal2 := if bal1 < 0.01 then 0 else bal1
    ({ s with
        remainingBalance := bal2,
        totalPaid := s.totalPaid + (principalPayment + interestPayment),
        interestPaid := s.interestPaid + interestPayment },
     left - (principalPayment + interestPayment))
  else (s, left)

/-- Allocate a timeline month over the sorted active list, threading the
remaining budget; the head of the list is the focused debt. -/
def tlAllocList (focused : Bool) (left : ℚ) :
    List (Nat × TLState) → List (Nat × TLState) × ℚ
  | [] => ([], left)
  | (i, s) :: rest =>
    let u := tlAllocStep focused left s
    let r := tlAllocList false u.2 rest
    ((i, u.1) :: r.1, r.2)

/-- Write the allocation's updated states back into `debtStates` by index. -/
def tlWriteBack (states : List TLState) (updates : List (Nat × TLState)) : List TLState :=
  states.enum.map (fun p => (updates.lookup p.1).getD p.2)

/-- A timeline month under a payment strategy: budget from the active set's
minimum payments, monthly re-sort, sequential allocation, write-back. -/
def tlStrategyMonth (strategy : PaymentStrategy) (interestThreshold : ℚ)
    (totalMonthlyBudget : Option ℚ) (states : List TLState) : List TLState :=
  let active := tlActiveOf states
  let budget := pickBudget totalMonthlyBudget (tlMinPayments active)
  let sortedActive := tlSort strategy interestThreshold active
  tlWriteBack states (tlAllocList true budget sortedActive).1

/-- A timeline month in standard (no-strategy) mode: each active debt pays
only its own payment; `totalPaid` accrues the full stated payment. -/
def tlStdPay (currentDate : SDate) (s0 : TLState) : TLState :=
  let s := tlActivate currentDate s0
  if tlActivePred s then
    let monthlyRate := adjustRate s.debt.interestRate / 100 / 12
    let interestPayment := s.remainingBalance * monthlyRate
    let principalPayment := min (s.debt.monthlyPayment.getD 0 - interestPayment) s.remainingBalance
    if 0 < principalPayment then
      let bal1 := s.remainingBalance - principalPayment
      let bal2 := if bal1 < 0.01 then 0 else bal1
      { s with
          remainingBalance := bal2,
          totalPaid := s.totalPaid + s.debt.monthlyPayment.getD 0,
          interestPaid := s.interestPaid + interestPayment }
    else s
  else s

/-- Month loop of `calculateCompleteDebtTimeline` (`fuel` = 600 − monthCount):
activate, allocate (strategy or standard), emit the month's totals over all
states, stop once the aggregate remaining balance is ≤ 0.01. -/
def tlLoop (strategy : Option PaymentStrategy) (totalMonthlyBudget : Option ℚ)
    (interestThreshold : ℚ) :
    Nat → SDate → Nat → List TLState → List DebtProjection
  | 0, _, _, _ => []
  | fuel + 1, currentDate, monthCount, states =>
    let states1 := states.map (tlActivate currentDate)
    let states2 :=
      match strategy with
      | some strat =>
        if (tlActiveOf states1).isEmpty then states1.map (tlStdPay currentDate)
        else tlStrategyMonth strat interestThreshold totalMonthlyBudget states1
      | none => states1.map (tlStdPay currentDate)
    let totalRemaining := (states2.map (fun s => s.remainingBalance)).sum
    let totalPaidSoFar := (states2.map (fun s => s.totalPaid)).sum
    let totalInterestSoFar := (states2.map (fun s => s.interestPaid)).sum
    let entry : DebtProjection :=
      ⟨monthCount + 1, currentDate, totalRemaining, totalPaidSoFar, totalInterestSoFar⟩
    if totalRemaining ≤ 0.01 then [entry]
    else entry :: tlLoop strategy totalMonthlyBudget interestThreshold fuel
      (currentDate.addMonths 1) (monthCount + 1) states2

/-- Staggered-activation simulator (`calculateCompleteDebtTimeline`): track all
included debts from the earliest start date; debts activate when the clock
reaches their own start date; at most 600 months. -/
def calculateCompleteDebtTimeline (debts : List Debt)
    (paymentStrategy : Option PaymentStrategy) (totalMonthlyBudget : Option ℚ)
    (interestThreshold : ℚ) : List DebtProjection :=
  let includedDebts := includedList debts
  match includedDebts with
  | [] => []
  | first :: _ =>
    let earliestStartDate := includedDebts.foldl
      (fun earliest d => if SDate.lt d.dateStarted earliest then d.dateStarted else earliest)
      first.dateStarted
    tlLoop paymentStrategy totalMonthlyBudget interestThreshold 600
      earliestStartDate 0 (includedDebts.map mkTLState)

/-!  Spec-described variant of the fixed-cohort simulator, for refinement
comparison only. -/

/-- Modelled from the spec: simulation loop of the fixed-cohort simulator as
§4.4 describes it, with the ordering strategy "applied to the active-debt set
each month, re-sorted every month"; the source's `calculateSnowballProjection`
sorts only once, before its loop. -/
def snowLoopResorted (strategy : PaymentStrategy) (interestThreshold : ℚ)
    (budget : ℚ) (today : SDate) :
    Nat → Nat → List SBDebt → ℚ → ℚ → List DebtProjection
  | 0, _, _, _, _ => []
  | fuel + 1, month, remainingDebts, paidSoFar, interestSoFar =>
    if remainingDebts.isEmpty then []
    else
      let sorted := sortByStrategy strategy interestThreshold remainingDebts
      let r := snowMonth true sorted budget
      let paid1 := paidSoFar + r.2.2.2.1
      let interest1 := interestSoFar + r.2.2.2.2
      (⟨month, today.addMonths (month - 1), r.2.2.1, paid1, interest1⟩ : DebtProjection) ::
        snowLoopResorted strategy interestThreshold budget today fuel (month + 1)
          (r.1.filter (fun d => decide (0.01 < d.currentBalance))) paid1 interest1

/-- Modelled from the spec: the fixed-cohort simulator with the monthly
re-sort the spec claims, otherwise identical to `calculateSnowballProjection`. -/
def snowballProjectionResorted (today : SDate) (debts : List Debt)
    (totalMonthlyBudget : Option ℚ) (strategy : PaymentStrategy)
    (interestThreshold : ℚ) : List DebtProjection :=
  let debtBalances := snowballCohort today debts
  if debtBalances.isEmpty then []
  else
    let sorted := sortByStrategy strategy interestThreshold debtBalances
    let totalMonthlyPayment := pickBudget totalMonthlyBudget (snowballMinPayments sorted)
    snowLoopResorted strategy interestThreshold totalMonthlyPayment today 600 1 sorted 0 0

/-!  Definitions used only to state the verified properties. -/

/-- Month-over-month monotonicity of two adjacent projection points:
remaining debt non-increasing, cumulative totals non-decreasing. -/
def ProjMono (a b : DebtProjection) : Prop :=
  b.remainingDebt ≤ a.remainingDebt ∧ a.totalPaid ≤ b.totalPaid ∧ a.interestPaid ≤ b.interestPaid

instance : IsTrans DebtProjection ProjMono :=
  ⟨fun _ _ _ hab hbc =>
    ⟨le_trans hbc.1 hab.1, le_trans hab.2.1 hbc.2.1, le_trans hab.2.2 hbc.2.2⟩⟩

/-- One debt's claimed contribution (remaining, paid, interest) to aggregate
month `m ≥ 1`: its own month `m` while its projection lasts; afterwards 0
remaining and its last recorded totals, carried forward (or nothing if its
projection is empty). -/
def debtContribTriple (today : SDate) (m : Nat) (d : Debt) : ℚ × ℚ × ℚ :=
  let p := calculateDebtProjection today d
  match p.get? (m - 1) with
  | some md => (md.remainingDebt, md.totalPaid, md.interestPaid)
  | none =>
    match p.getLast? with
    | some e => (0, e.totalPaid, e.interestPaid)
    | none => (0, 0, 0)

/-- The aggregate month the claim predicts: per-debt contributions summed. -/
def aggMonthEntry (today : SDate) (l : List Debt) (j : Nat) : DebtProjection :=
  ⟨j, today.addMonths (j - 1),
   (l.map (fun d => (debtContribTriple today j d).1)).sum,
   (l.map (fun d => (debtContribTriple today j d).2.1)).sum,
   (l.map (fun d => (debtContribTriple today j d).2.2)).sum⟩

/-- What the `debtFinalTotals` map should hold for a debt once months
`1 … m` have been aggregated. -/
def canonFinal (today : SDate) (m : Nat) (d : Debt) : Option (ℚ × ℚ) :=
  if m = 0 then none
  else
    let p := calculateDebtProjection today d
    match p.get? (m - 1) with
    | some md => some (md.totalPaid, md.interestPaid)
    | none =>
      match p.getLast? with
      | some e => some (e.totalPaid, e.interestPaid)
      | none => none

/-!  Concrete inputs used by witnesses and counterexamples. -/

/-- A fixed evaluation date. -/
def sampleToday : SDate := ⟨2025, 1, 1⟩

/-- A 1.2%-sentinel debt. -/
def debtSentinel : Debt := ⟨"a", 1200, 1200, 1.2, ⟨2025, 1, 1⟩, some 100, none, none⟩

/-- The same debt with a literal 0% rate. -/
def debtZero : Debt := ⟨"a", 1200, 1200, 0, ⟨2025, 1, 1⟩, some 100, none, none⟩

/-- Timeline counterexample debt, sentinel rate. -/
def debtTLSentinel : Debt := ⟨"A", 1000, 1000, 1.2, ⟨2025, 1, 1⟩, some 100, none, none⟩

/-- Timeline counterexample debt, literal zero rate. -/
def debtTLZero : Debt := ⟨"A", 1000, 1000, 0, ⟨2025, 1, 1⟩, some 100, none, none⟩

/-- Timeline counterexample companion debt with a rate between 0 and 1.2. -/
def debtTLMid : Debt := ⟨"B", 1000, 1000, 0.6, ⟨2025, 1, 1⟩, some 100, none, none⟩

/-- Slow low-balance debt for the re-sort counterexample. -/
def debtSlowA : Debt := ⟨"cA", 150, 150, 0, ⟨2025, 1, 1⟩, some 2, none, none⟩

/-- Slow mid-balance debt for the re-sort counterexample. -/
def debtSlowB : Debt := ⟨"cB", 200, 200, 0, ⟨2025, 1, 1⟩, some 1, none, none⟩

/-- Fast high-balance debt for the re-sort counterexample. -/
def debtFastC : Debt := ⟨"cC", 210, 210, 12, ⟨2025, 1, 1⟩, some 100, none, none⟩

/-- Small witness debt with interest. -/
def debtW1 : Debt := ⟨"w1", 1000, 1000, 12, ⟨2025, 1, 1⟩, some 400, none, none⟩

/-- Small zero-interest witness debt. -/
def debtW2 : Debt := ⟨"w2", 300, 300, 0, ⟨2025, 1, 1⟩, some 300, none, none⟩

/-- Debt with no monthly payment. -/
def debtNoPay : Debt := ⟨"x", 500, 500, 0, ⟨2025, 1, 1⟩, none, none, none⟩

/-- Debt whose payment does not cover its monthly interest
(manual balance override 1000, 120% APR, payment 50 ≤ interest 100). -/
def debtStuck : Debt := ⟨"y", 900, 1000, 120, ⟨2025, 1, 1⟩, some 50, none, none⟩

/-!  Theorems.  C3: the solver round trip. -/

theorem interestRateLoop_first_hit (L P : ℚ) (n : ℕ) (r : ℚ) (fuel : ℕ)
    (h0 : ¬ r ≤ 0) (h1 : |L * (r * (1 + r) ^ n) / ((1 + r) ^ n - 1) - P| < 1 / 10 ^ 8) :
    interestRateLoop L P n r (fuel + 1) = r * 12 * 100 := by
  simp only [interestRateLoop]
  rw [if_neg h0, if_pos h1]

theorem calculateMonthlyPayment_rate12 (p : ℚ) (n : ℕ) (hp : 0 < p) (hn : 0 < n) :
    calculateMonthlyPayment p 12 n
      = p * (1 / 100 * (1 + 1 / 100) ^ n) / ((1 + 1 / 100) ^ n - 1) := by
  have hfac : (1 + 1 / 100 : ℚ) ≤ (1 + 1 / 100) ^ n :=
    le_self_pow₀ (by norm_num) hn.ne'
  have hf1 : (0 : ℚ) < (1 + 1 / 100) ^ n - 1 := by linarith
  have hf0 : (0 : ℚ) < (1 + 1 / 100) ^ n := by positivity
  have hc : (12 / 100 / 12 : ℚ) = 1 / 100 := by norm_num
  simp only [calculateMonthlyPayment, hc]
  rw [if_neg (by push_neg; exact ⟨hp, hn.ne'⟩), if_neg (by norm_num : ¬ (12 : ℚ) = 0),
    if_neg (by norm_num : ¬ (1 / 100 : ℚ) < 1 / 10 ^ 10),
    if_neg (by push_neg; nlinarith : ¬ ((1 + 1 / 100 : ℚ) ^ n - 1 < 1 / 10 ^ 10)),
    if_pos]
  exact div_pos (mul_pos hp (by positivity)) hf1

/-- Claim C3 (amended): when the original annual rate is 12% — i.e. the
monthly rate equals the Newton solver's initial 1% guess — the
payment-then-rate round trip returns exactly 12 for every positive principal
and duration.  (As stated over all rates the claim fails; see the
counterexample.) -/
theorem claim_C3_roundtrip_at_initial_guess (p : ℚ) (n : ℕ) (hp : 0 < p) (hn : 0 < n) :
    calculateInterestRate p (calculateMonthlyPayment p 12 n) n = 12 := by
  rw [calculateMonthlyPayment_rate12 p n hp hn]
  show interestRateLoop p _ n (1 / 100) 100 = 12
  rw [show (100 : ℕ) = 99 + 1 from rfl,
    interestRateLoop_first_hit _ _ _ _ _ (by norm_num)
      (by rw [sub_self, abs_zero]; norm_num)]
  norm_num

/-- Witness for the amended C3 at the spec's own worked example
(principal 120000, rate 12%, duration 12). -/
theorem claim_C3_witness :
    (0 : ℚ) < 120000 ∧ 0 < 12 ∧
      calculateInterestRate 120000 (calculateMonthlyPayment 120000 12 12) 12 = 12 :=
  ⟨by norm_num, by norm_num,
    claim_C3_roundtrip_at_initial_guess 120000 12 (by norm_num) (by norm_num)⟩

/-- Counterexample to C3 as stated: principal 10⁻⁹ > 0, rate 0, duration 1.
The first Newton iterate (1% monthly) already has payment residual 10⁻¹¹,
inside the 10⁻⁸ tolerance, so the solver returns 12 — an absolute rate error
of 12, far beyond the solver's stated tolerance. -/
theorem claim_C3_counterexample :
    (0 : ℚ) < 1 / 10 ^ 9 ∧
      calculateInterestRate (1 / 10 ^ 9) (calculateMonthlyPayment (1 / 10 ^ 9) 0 1) 1 = 12 ∧
      ¬ |calculateInterestRate (1 / 10 ^ 9) (calculateMonthlyPayment (1 / 10 ^ 9) 0 1) 1 - 0|
          ≤ 1 / 10 ^ 8 := by
  refine ⟨by norm_num, ?_, ?_⟩
  · with_unfolding_all decide
  · with_unfolding_all decide

/-!  C7: degenerate inputs produce empty projections / early stops. -/

theorem ccbLoop_stops (payment monthlyRate bal paid interest : ℚ) (fuel : ℕ)
    (hb : 0.01 < bal) (hp : payment - bal * monthlyRate ≤ 0) :
    ccbLoop payment monthlyRate fuel (bal, paid, interest) = (bal, paid, interest) := by
  cases fuel with
  | zero => rfl
  | succ f =>
    simp only [ccbLoop]
    rw [if_pos hb, if_pos (le_trans (min_le_left _ _) hp)]

theorem cdpLoop_stuck (payment monthlyRate : ℚ) (fuel : ℕ) (date : SDate)
    (mc : ℕ) (bal paid interest : ℚ)
    (hp : payment - bal * monthlyRate ≤ 0) :
    cdpLoop payment monthlyRate (fuel + 1) date mc bal paid interest = [] := by
  simp only [cdpLoop]
  split
  · rw [if_pos (le_trans (min_le_left _ _) hp)]
  · rfl

/-- Claim C7: a debt with no monthly payment projects to the empty sequence;
a debt whose payment does not exceed the first month's interest on an
above-0.01 starting balance projects to the empty sequence (no error, no
loop); and the balance-reconstruction loop returns its accumulated state
unchanged at the first month whose principal portion is ≤ 0. -/
theorem claim_C7_degenerate_inputs (today : SDate) (debt : Debt) :
    (debt.monthlyPayment = none → calculateDebtProjection today debt = []) ∧
    (∀ p : ℚ, debt.monthlyPayment = some p →
      0.01 < startingBalance today debt →
      p ≤ startingBalance today debt * (adjustRate debt.interestRate / 100 / 12) →
      calculateDebtProjection today debt = []) ∧
    (∀ (payment monthlyRate bal paid interest : ℚ) (fuel : ℕ),
      0.01 < bal → payment - bal * monthlyRate ≤ 0 →
      ccbLoop payment monthlyRate fuel (bal, paid, interest) = (bal, paid, interest)) := by
  refine ⟨?_, ?_, fun payment monthlyRate bal paid interest fuel hb hp =>
    ccbLoop_stops payment monthlyRate bal paid interest fuel hb hp⟩
  · intro h
    simp [calculateDebtProjection, truthyPayment, h]
  · intro p hp _hb hle
    simp only [calculateDebtProjection, truthyPayment, hp]
    split
    · rfl
    · rw [show (600 : ℕ) = 599 + 1 from rfl]
      apply cdpLoop_stuck
      simp only [Option.getD_some]
      linarith

/-- Witness for C7: a debt with no payment, the stuck debt
(override balance 1000, 120% APR ⇒ interest 100 ≥ payment 50), and a
concrete stopped reconstruction state. -/
theorem claim_C7_witness :
    calculateDebtProjection sampleToday debtNoPay = [] ∧
    calculateDebtProjection sampleToday debtStuck = [] ∧
    ccbLoop 50 (1 / 10) 7 (1000, 300, 20) = (1000, 300, 20) := by
  refine ⟨(claim_C7_degenerate_inputs sampleToday debtNoPay).1 rfl,
    (claim_C7_degenerate_inputs sampleToday debtStuck).2.1 50 rfl ?_ ?_,
    (claim_C7_degenerate_inputs sampleToday debtNoPay).2.2 50 (1 / 10) 1000 300 20 7
      (by norm_num) (by norm_num)⟩
  · with_unfolding_all decide
  · with_unfolding_all decide

/-!  C8: every operation returns at most 600 projection points. -/

theorem cdpLoop_length_le (payment monthlyRate : ℚ) :
    ∀ (fuel : ℕ) (date : SDate) (mc : ℕ) (bal paid interest : ℚ),
      (cdpLoop payment monthlyRate fuel date mc bal paid interest).length ≤ fuel := by
  intro fuel
  induction fuel with
  | zero => intro date mc bal paid interest; simp [cdpLoop]
  | succ f ih =>
    intro date mc bal paid interest
    simp only [cdpLoop]
    split
    · split
      · simp
      · split
        · simp
        · simpa using Nat.succ_le_succ (ih _ _ _ _ _)
    · simp

theorem aggLoop_length_le (today : SDate) (debts : List Debt) :
    ∀ (fuel m : ℕ) (finals : String → Option (ℚ × ℚ)),
      (aggLoop today debts fuel m finals).length ≤ fuel := by
  intro fuel
  induction fuel with
  | zero => intro m finals; simp [aggLoop]
  | succ f ih =>
    intro m finals
    simp only [aggLoop]
    split
    · simp
    · simpa using Nat.succ_le_succ (ih _ _)

theorem snowLoop_length_le (budget : ℚ) (today : SDate) :
    ∀ (fuel month : ℕ) (l : List SBDebt) (paid interest : ℚ),
      (snowLoop budget today fuel month l paid interest).length ≤ fuel := by
  intro fuel
  induction fuel with
  | zero => intro month l paid interest; simp [snowLoop]
  | succ f ih =>
    intro month l paid interest
    simp only [snowLoop]
    split
    · simp
    · simpa using Nat.succ_le_succ (ih _ _ _ _)

theorem length_ite_cons {α : Type} (c : Prop) [Decidable c] (e : α) (rest : List α) :
    (if c then [e] else e :: rest).length ≤ rest.length + 1 := by
  split <;> simp

theorem tlLoop_length_le (strategy : Option PaymentStrategy) (b : Option ℚ) (thr : ℚ) :
    ∀ (fuel : ℕ) (date : SDate) (mc : ℕ) (states : List TLState),
      (tlLoop strategy b thr fuel date mc states).length ≤ fuel := by
  intro fuel
  induction fuel with
  | zero => intro date mc states; simp [tlLoop]
  | succ f ih =>
    intro date mc states
    simp only [tlLoop]
    exact le_trans (length_ite_cons _ _ _) (Nat.succ_le_succ (ih _ _ _))

theorem foldl_max_le_600 : ∀ (l : List ℕ) (a : ℕ),
    a ≤ 600 → (∀ x ∈ l, x ≤ 600) → l.foldl max a ≤ 600 := by
  intro l
  induction l with
  | nil => intro a ha _; simpa using ha
  | cons x xs ih =>
    intro a ha hx
    simp only [List.foldl_cons]
    exact ih (max a x) (max_le ha (hx x (by simp))) fun y hy => hx y (by simp [hy])

/-- Claim C8: all four projection/simulation operations are total (they are
fuel-bounded functions) and return at most 600 projection points; hitting the
cap truncates the sequence. -/
theorem claim_C8_bounded_output (today : SDate) (debt : Debt) (debts : List Debt)
    (strat : PaymentStrategy) (stratOpt : Option PaymentStrategy)
    (b : Option ℚ) (thr : ℚ) :
    (calculateDebtProjection today debt).length ≤ 600 ∧
    (calculateTotalDebtProjection today debts).length ≤ 600 ∧
    (calculateSnowballProjection today debts b strat thr).length ≤ 600 ∧
    (calculateCompleteDebtTimeline debts stratOpt b thr).length ≤ 600 := by
  refine ⟨?_, ?_, ?_, ?_⟩
  · simp only [calculateDebtProjection]
    split
    · simp
    · exact cdpLoop_length_le _ _ 600 _ _ _ _ _
  · simp only [calculateTotalDebtProjection]
    split
    · simp
    · refine le_trans (aggLoop_length_le _ _ _ _ _) ?_
      exact foldl_max_le_600 _ 0 (by norm_num)
        (by
          intro x hx
          obtain ⟨d, _, rfl⟩ := List.mem_map.1 hx
          have h := cdpLoop_length_le (d.monthlyPayment.getD 0)
            (adjustRate d.interestRate / 100 / 12) 600 today 0
            (startingBalance today d) 0 0
          simp only [calculateDebtProjection]
          split
          · simp
          · exact h)
  · simp only [calculateSnowballProjection]
    split
    · simp
    · exact snowLoop_length_le _ _ 600 _ _ _ _
  · simp only [calculateCompleteDebtTimeline]
    split
    · simp
    · exact tlLoop_length_le _ _ _ 600 _ _ _

/-!  C4: single-debt projections are monotone month over month. -/

theorem cdpLoop_chain (payment monthlyRate : ℚ) (hr : 0 ≤ monthlyRate) :
    ∀ (fuel : ℕ) (date : SDate) (mc : ℕ) (bal paid interest : ℚ),
      List.Chain' ProjMono (cdpLoop payment monthlyRate fuel date mc bal paid interest) ∧
      ∀ e ∈ (cdpLoop payment monthlyRate fuel date mc bal paid interest).head?,
        e.remainingDebt ≤ max 0 bal ∧ paid ≤ e.totalPaid ∧ interest ≤ e.interestPaid := by
  intro fuel
  induction fuel with
  | zero => intro date mc bal paid interest; simp [cdpLoop]
  | succ f ih =>
    intro date mc bal paid interest
    simp only [cdpLoop]
    split
    · rename_i hbal
      split
    -- principal ≤ 0: loop breaks with the empty list
      · simp
      · rename_i hprin
        push_neg at hprin
        have hi : 0 ≤ bal * monthlyRate :=
          mul_nonneg (le_of_lt (lt_trans (by norm_num) hbal)) hr
        have hpay : 0 < payment := by
          have h1 : 0 < payment - bal * monthlyRate := lt_of_lt_of_le hprin (min_le_left _ _)
          linarith
        have hbal1 : bal - min (payment - bal * monthlyRate) bal ≤ bal := by
          have := lt_of_lt_of_le hprin (min_le_right _ _)
          linarith [lt_min_iff.1 hprin]
        have hmax : max 0 (bal - min (payment - bal * monthlyRate) bal) ≤ max 0 bal :=
          max_le_max le_rfl hbal1
        split
        -- the month that paid the debt below 0.01: singleton output
        · refine ⟨List.chain'_singleton _, ?_⟩
          intro e he
          simp only [List.head?_cons, Option.mem_def, Option.some.injEq] at he
          subst he
          exact ⟨hmax, by simp; linarith, by simp; linarith⟩
        -- ordinary month: cons onto the recursive tail
        · obtain ⟨ihchain, ihhead⟩ := ih (date.addMonths 1) (mc + 1)
            (bal - min (payment - bal * monthlyRate) bal) (paid + payment)
            (interest + bal * monthlyRate)
          constructor
          · refine List.chain'_cons'.2 ⟨?_, ihchain⟩
            intro y hy
            obtain ⟨hy1, hy2, hy3⟩ := ihhead y hy
            exact ⟨le_trans hy1 (by simp), hy2, hy3⟩
          · intro e he
            simp only [List.head?_cons, Option.mem_def, Option.some.injEq] at he
            subst he
            exact ⟨hmax, by simp; linarith, by simp; linarith⟩
    · simp

/-- Claim C4: for a debt with a monthly payment set (and a non-negative APR,
which the app's debt form enforces), the projected sequence has non-increasing
`remainingDebt` and non-decreasing `totalPaid` and `interestPaid` from each
projection point to the next. -/
theorem claim_C4_projection_monotone (today : SDate) (debt : Debt) (p : ℚ)
    (_hset : debt.monthlyPayment = some p) (hr : 0 ≤ debt.interestRate) :
    List.Chain' ProjMono (calculateDebtProjection today debt) := by
  have hmr : 0 ≤ adjustRate debt.interestRate / 100 / 12 := by
    unfold adjustRate
    split
    · norm_num
    · positivity
  simp only [calculateDebtProjection]
  split
  · simp
  · exact (cdpLoop_chain _ _ hmr 600 today 0 (startingBalance today debt) 0 0).1

/-- Witness for C4 at a concrete debt (1000 at 12% APR, 400/month). -/
theorem claim_C4_witness :
    debtW1.monthlyPayment = some 400 ∧ (0 : ℚ) ≤ debtW1.interestRate ∧
      List.Chain' ProjMono (calculateDebtProjection sampleToday debtW1) :=
  ⟨rfl, by norm_num [debtW1],
    claim_C4_projection_monotone sampleToday debtW1 400 rfl (by norm_num [debtW1])⟩

/-!  C6: the simulated budget is max(supplied budget, minimum payments). -/

theorem pickBudget_eq_max (b : Option ℚ) (m : ℚ) (hm : 0 ≤ m) :
    pickBudget b m = max (b.getD 0) m := by
  cases b with
  | none => simp [pickBudget, max_eq_right hm]
  | some x =>
    simp only [pickBudget, Option.getD_some]
    split
    · rename_i h
      exact (max_eq_left (le_of_lt h.2)).symm
    · rename_i h
      push_neg at h
      by_cases hx : x = 0
      · subst hx
        exact (max_eq_right hm).symm
      · exact (max_eq_right (h hx)).symm

theorem mem_sortByStrategy {strategy : PaymentStrategy} {thr : ℚ} {l : List SBDebt}
    {a : SBDebt} (h : a ∈ sortByStrategy strategy thr l) : a ∈ l := by
  cases strategy with
  | snowball => exact ((List.perm_insertionSort _ _).mem_iff).1 h
  | avalanche => exact ((List.perm_insertionSort _ _).mem_iff).1 h
  | cashflow => exact ((List.perm_insertionSort _ _).mem_iff).1 h
  | smart =>
    rcases List.mem_append.1 h with h1 | h1
    · exact (List.mem_filter.1 (((List.perm_insertionSort _ _).mem_iff).1 h1)).1
    · exact (List.mem_filter.1 (((List.perm_insertionSort _ _).mem_iff).1 h1)).1

theorem snowballCohort_payment_pos {today : SDate} {debts : List Debt} {a : SBDebt}
    (h : a ∈ snowballCohort today debts) : 0 < a.monthlyPayment.getD 0 := by
  simp only [snowballCohort] at h
  obtain ⟨hb, _⟩ := List.mem_filter.1 h
  obtain ⟨d, hd, rfl⟩ := List.mem_map.1 hb
  have := (List.mem_filter.1 hd).2
  simp only [Bool.and_eq_true, decide_eq_true_eq] at this
  exact this.2

theorem snowballMinPayments_nonneg (today : SDate) (debts : List Debt)
    (strategy : PaymentStrategy) (thr : ℚ) :
    0 ≤ snowballMinPayments (sortByStrategy strategy thr (snowballCohort today debts)) := by
  apply List.sum_nonneg
  intro x hx
  obtain ⟨d, hd, rfl⟩ := List.mem_map.1 hx
  exact le_of_lt (snowballCohort_payment_pos (mem_sortByStrategy hd))

theorem tlMinPayments_nonneg (states : List TLState)
    (h : ∀ s ∈ states, 0 ≤ s.debt.monthlyPayment.getD 0) :
    0 ≤ tlMinPayments (tlActiveOf states) := by
  apply List.sum_nonneg
  intro x hx
  obtain ⟨p, hp, rfl⟩ := List.mem_map.1 hx
  have hp1 : p ∈ states.enum := (List.mem_filter.1 hp).1
  exact h p.2 (List.mem_iff_getElem?.2 ⟨p.1, List.mem_enum_iff_getElem?.1 hp1⟩)

/-- Claim C6: both simulators use exactly
`max(suppliedBudget, sum of the active debts' minimum payments)` as the
monthly budget — the minimum-payments floor when the supplied budget is
missing or not above it, else the supplied budget.  The fixed-cohort
simulator determines this once from its (sorted) cohort, the staggered
simulator recomputes it each month from that month's active set; both sides
are stated on the exact budget expressions those simulators evaluate.  The
hypothesis (non-negative stated payments, enforced by the app's debt form) is
needed only on the staggered side, whose active filter does not require
positive payments. -/
theorem claim_C6_budget_is_max (today : SDate) (debts : List Debt) (b : Option ℚ)
    (strategy : PaymentStrategy) (thr : ℚ) (states : List TLState)
    (hpay : ∀ s ∈ states, 0 ≤ s.debt.monthlyPayment.getD 0) :
    pickBudget b (snowballMinPayments (sortByStrategy strategy thr (snowballCohort today debts)))
        = max (b.getD 0)
            (snowballMinPayments (sortByStrategy strategy thr (snowballCohort today debts))) ∧
    pickBudget b (tlMinPayments (tlActiveOf states))
        = max (b.getD 0) (tlMinPayments (tlActiveOf states)) :=
  ⟨pickBudget_eq_max b _ (snowballMinPayments_nonneg today debts strategy thr),
   pickBudget_eq_max b _ (tlMinPayments_nonneg states hpay)⟩

/-- Witness for C6: a concrete underfunded budget (50) against the cohort of
`debtW1`/`debtW2` and a concrete timeline state list. -/
theorem claim_C6_witness :
    pickBudget (some 50)
        (snowballMinPayments (sortByStrategy .snowball 5 (snowballCohort sampleToday [debtW1, debtW2])))
        = max 50
            (snowballMinPayments (sortByStrategy .snowball 5 (snowballCohort sampleToday [debtW1, debtW2]))) ∧
      pickBudget (some 50) (tlMinPayments (tlActiveOf [mkTLState debtW1]))
        = max 50 (tlMinPayments (tlActiveOf [mkTLState debtW1])) :=
  claim_C6_budget_is_max sampleToday [debtW1, debtW2] (some 50) .snowball 5 [mkTLState debtW1]
    (by intro s hs; fin_cases hs; with_unfolding_all decide)

/-!  C10: the monthly budget accumulator of the fixed-cohort simulator. -/

theorem snowStep_left_eq (f : Bool) (left : ℚ) (d : SBDebt) :
    (snowStep f left d).2.1 =
      if min ((if f = true then left else min (d.monthlyPayment.getD 0) left) -
          d.currentBalance * (d.interestRate / 100 / 12)) d.currentBalance ≤ 0
      then left
      else left - (min ((if f = true then left else min (d.monthlyPayment.getD 0) left) -
          d.currentBalance * (d.interestRate / 100 / 12)) d.currentBalance +
        d.currentBalance * (d.interestRate / 100 / 12)) := by
  simp only [snowStep]
  split_ifs <;> rfl

theorem snowStep_paid_proj_eq (f : Bool) (left : ℚ) (d : SBDebt) :
    (snowStep f left d).2.2.2.1 =
      if min ((if f = true then left else min (d.monthlyPayment.getD 0) left) -
          d.currentBalance * (d.interestRate / 100 / 12)) d.currentBalance ≤ 0
      then 0
      else min ((if f = true then left else min (d.monthlyPayment.getD 0) left) -
          d.currentBalance * (d.interestRate / 100 / 12)) d.currentBalance +
        d.currentBalance * (d.interestRate / 100 / 12) := by
  simp only [snowStep]
  split_ifs <;> rfl

theorem snowStep_left_nonneg (f : Bool) (left : ℚ) (d : SBDebt) (h : 0 ≤ left) :
    0 ≤ (snowStep f left d).2.1 := by
  rw [snowStep_left_eq]
  cases f with
  | false =>
    simp only [Bool.false_eq_true, if_false]
    have hmin := min_le_left
      (min (d.monthlyPayment.getD 0) left - d.currentBalance * (d.interestRate / 100 / 12))
      d.currentBalance
    have havail := min_le_right (d.monthlyPayment.getD 0) left
    split_ifs with h1
    · exact h
    · linarith
  | true =>
    simp only [eq_self_iff_true, if_true]
    have hmin := min_le_left
      (left - d.currentBalance * (d.interestRate / 100 / 12)) d.currentBalance
    split_ifs with h1
    · exact h
    · linarith

theorem snowStep_paid_eq (f : Bool) (left : ℚ) (d : SBDebt) :
    (snowStep f left d).2.2.2.1 = left - (snowStep f left d).2.1 := by
  rw [snowStep_left_eq, snowStep_paid_proj_eq]
  split_ifs <;> ring

theorem snowStep_unfocused_capped (left : ℚ) (d : SBDebt)
    (hpay : 0 ≤ d.monthlyPayment.getD 0) :
    left - (snowStep false left d).2.1 ≤ d.monthlyPayment.getD 0 := by
  rw [snowStep_left_eq]
  simp only [Bool.false_eq_true, if_false]
  have hmin := min_le_left
    (min (d.monthlyPayment.getD 0) left - d.currentBalance * (d.interestRate / 100 / 12))
    d.currentBalance
  have hmin2 := min_le_left (d.monthlyPayment.getD 0) left
  split_ifs with h1
  · simpa using hpay
  · linarith

theorem snowMonth_left_nonneg (l : List SBDebt) : ∀ (f : Bool) (left : ℚ),
    0 ≤ left → 0 ≤ (snowMonth f l left).2.1 := by
  induction l with
  | nil => intro f left h; simpa [snowMonth] using h
  | cons d rest ih =>
    intro f left h
    simp only [snowMonth]
    exact ih false _ (snowStep_left_nonneg f left d h)

theorem snowMonth_paid_eq (l : List SBDebt) : ∀ (f : Bool) (left : ℚ),
    (snowMonth f l left).2.2.2.1 = left - (snowMonth f l left).2.1 := by
  induction l with
  | nil => intro f left; simp [snowMonth]
  | cons d rest ih =>
    intro f left
    simp only [snowMonth]
    rw [ih false (snowStep f left d).2.1, snowStep_paid_eq f left d]
    ring

theorem snowLoop_chain (budget : ℚ) (today : SDate) (hb : 0 ≤ budget) :
    ∀ (fuel month : ℕ) (l : List SBDebt) (paid interest : ℚ),
      List.Chain' (fun a b => b.totalPaid ≤ a.totalPaid + budget)
        (snowLoop budget today fuel month l paid interest) ∧
      ∀ e ∈ (snowLoop budget today fuel month l paid interest).head?,
        e.totalPaid ≤ paid + budget := by
  intro fuel
  induction fuel with
  | zero => intro month l paid interest; simp [snowLoop]
  | succ f ih =>
    intro month l paid interest
    simp only [snowLoop]
    split
    · simp
    · have hpaidle : (snowMonth true l budget).2.2.2.1 ≤ budget := by
        rw [snowMonth_paid_eq l true budget]
        have := snowMonth_left_nonneg l true budget hb
        linarith
      obtain ⟨ihchain, ihhead⟩ := ih (month + 1) (snowAdvance budget l)
        (paid + (snowMonth true l budget).2.2.2.1)
        (interest + (snowMonth true l budget).2.2.2.2)
      constructor
      · refine List.chain'_cons'.2 ⟨?_, ihchain⟩
        intro y hy
        have := ihhead y hy
        simp only
        linarith
      · intro e he
        simp only [List.head?_cons, Option.mem_def, Option.some.injEq] at he
        subst he
        simp only
        linarith

theorem pickBudget_nonneg (b : Option ℚ) (m : ℚ) (hm : 0 ≤ m) : 0 ≤ pickBudget b m := by
  rw [pickBudget_eq_max b m hm]
  exact le_trans hm (le_max_right _ _)

/-- Claim C10: in the fixed-cohort simulator, (i) a month's threaded budget
accumulator stays non-negative from any non-negative start (so in particular
from the month's opening `totalMonthlyPayment`), (ii) the sum of
principal + interest disbursed in a month equals the budget consumed, hence is
at most the opening budget, (iii) a non-focused debt consumes at most its own
stated monthly payment, and (iv) consequently each month of the simulator's
output raises cumulative `totalPaid` by at most the determined monthly budget. -/
theorem claim_C10_budget_never_negative (today : SDate) (debts : List Debt)
    (ob : Option ℚ) (strategy : PaymentStrategy) (thr : ℚ)
    (l : List SBDebt) (d : SBDebt) (left : ℚ)
    (hleft : 0 ≤ left) (hpay : 0 ≤ d.monthlyPayment.getD 0) :
    0 ≤ (snowMonth true l left).2.1 ∧
    (snowMonth true l left).2.2.2.1 = left - (snowMonth true l left).2.1 ∧
    left - (snowStep false left d).2.1 ≤ d.monthlyPayment.getD 0 ∧
    List.Chain' (fun a b => b.totalPaid ≤ a.totalPaid +
        pickBudget ob (snowballMinPayments (sortByStrategy strategy thr (snowballCohort today debts))))
      (calculateSnowballProjection today debts ob strategy thr) ∧
    ∀ e ∈ (calculateSnowballProjection today debts ob strategy thr).head?,
      e.totalPaid ≤
        pickBudget ob (snowballMinPayments (sortByStrategy strategy thr (snowballCohort today debts))) := by
  have hb : 0 ≤ pickBudget ob
      (snowballMinPayments (sortByStrategy strategy thr (snowballCohort today debts))) :=
    pickBudget_nonneg _ _ (snowballMinPayments_nonneg today debts strategy thr)
  refine ⟨snowMonth_left_nonneg l true left hleft, snowMonth_paid_eq l true left,
    snowStep_unfocused_capped left d hpay, ?_, ?_⟩
  · simp only [calculateSnowballProjection]
    split
    · simp
    · exact (snowLoop_chain _ today hb 600 1 _ 0 0).1
  · simp only [calculateSnowballProjection]
    split
    · simp
    · intro e he
      have := (snowLoop_chain _ today hb 600 1
        (sortByStrategy strategy thr (snowballCohort today debts)) 0 0).2 e he
      linarith

/-- Witness for C10 at concrete inputs. -/
theorem claim_C10_witness :
    0 ≤ (snowMonth true [mkSBDebt sampleToday debtW1] 500).2.1 ∧
    (snowMonth true [mkSBDebt sampleToday debtW1] 500).2.2.2.1
      = 500 - (snowMonth true [mkSBDebt sampleToday debtW1] 500).2.1 ∧
    500 - (snowStep false 500 (mkSBDebt sampleToday debtW2)).2.1
      ≤ (mkSBDebt sampleToday debtW2).monthlyPayment.getD 0 ∧
    List.Chain' (fun a b => b.totalPaid ≤ a.totalPaid +
        pickBudget (some 800)
          (snowballMinPayments (sortByStrategy .snowball 5 (snowballCohort sampleToday [debtW1, debtW2]))))
      (calculateSnowballProjection sampleToday [debtW1, debtW2] (some 800) .snowball 5) ∧
    ∀ e ∈ (calculateSnowballProjection sampleToday [debtW1, debtW2] (some 800) .snowball 5).head?,
      e.totalPaid ≤
        pickBudget (some 800)
          (snowballMinPayments (sortByStrategy .snowball 5 (snowballCohort sampleToday [debtW1, debtW2]))) :=
  claim_C10_budget_never_negative sampleToday [debtW1, debtW2] (some 800) .snowball 5
    [mkSBDebt sampleToday debtW1] (mkSBDebt sampleToday debtW2) 500
    (by norm_num) (by with_unfolding_all decide)

/-!  C1: the 1.2 → 0% sentinel. -/

theorem zeroSentinel_adjustRate (d : Debt) :
    adjustRate (zeroSentinel d).interestRate = adjustRate d.interestRate := by
  unfold zeroSentinel
  split_ifs with h
  · simp [adjustRate, h]
  · rfl

theorem zeroSentinel_id (d : Debt) : (zeroSentinel d).id = d.id := by
  unfold zeroSentinel; split <;> rfl

theorem zeroSentinel_totalAmount (d : Debt) : (zeroSentinel d).totalAmount = d.totalAmount := by
  unfold zeroSentinel; split <;> rfl

theorem zeroSentinel_currentAmount (d : Debt) :
    (zeroSentinel d).currentAmount = d.currentAmount := by
  unfold zeroSentinel; split <;> rfl

theorem zeroSentinel_dateStarted (d : Debt) : (zeroSentinel d).dateStarted = d.dateStarted := by
  unfold zeroSentinel; split <;> rfl

theorem zeroSentinel_monthlyPayment (d : Debt) :
    (zeroSentinel d).monthlyPayment = d.monthlyPayment := by
  unfold zeroSentinel; split <;> rfl

theorem zeroSentinel_includeInTotal (d : Debt) :
    (zeroSentinel d).includeInTotal = d.includeInTotal := by
  unfold zeroSentinel; split <;> rfl

theorem calculateCurrentBalance_zeroSentinel (today : SDate) (d : Debt) :
    calculateCurrentBalance today (zeroSentinel d) = calculateCurrentBalance today d := by
  simp only [calculateCurrentBalance, zeroSentinel_adjustRate, zeroSentinel_monthlyPayment,
    zeroSentinel_dateStarted, zeroSentinel_totalAmount]

theorem startingBalance_zeroSentinel (today : SDate) (d : Debt) :
    startingBalance today (zeroSentinel d) = startingBalance today d := by
  simp only [startingBalance, calculateCurrentBalance_zeroSentinel, zeroSentinel_currentAmount,
    zeroSentinel_totalAmount]

theorem calculateDebtProjection_zeroSentinel (today : SDate) (d : Debt) :
    calculateDebtProjection today (zeroSentinel d) = calculateDebtProjection today d := by
  simp only [calculateDebtProjection, zeroSentinel_adjustRate, zeroSentinel_monthlyPayment,
    startingBalance_zeroSentinel]

theorem includedList_map_zeroSentinel (debts : List Debt) :
    includedList (debts.map zeroSentinel) = (includedList debts).map zeroSentinel := by
  simp only [includedList]
  rw [List.filter_map]
  congr 1
  apply List.filter_congr
  intro d _
  simp [Function.comp, isIncluded, zeroSentinel_includeInTotal]

theorem aggStep_zeroSentinel (today : SDate) (m : ℕ)
    (acc : ℚ × ℚ × ℚ × (String → Option (ℚ × ℚ))) (d : Debt) :
    aggStep today m acc (zeroSentinel d) = aggStep today m acc d := by
  simp only [aggStep, calculateDebtProjection_zeroSentinel, zeroSentinel_id]

theorem aggFoldl_zeroSentinel (today : SDate) (m : ℕ) (l : List Debt) :
    ∀ init, (l.map zeroSentinel).foldl (aggStep today m) init = l.foldl (aggStep today m) init := by
  induction l with
  | nil => intro init; rfl
  | cons d rest ih =>
    intro init
    simp only [List.map_cons, List.foldl_cons]
    rw [aggStep_zeroSentinel]
    exact ih _

theorem aggLoop_zeroSentinel (today : SDate) (l : List Debt) :
    ∀ (fuel m : ℕ) (finals : String → Option (ℚ × ℚ)),
      aggLoop today (l.map zeroSentinel) fuel m finals = aggLoop today l fuel m finals := by
  intro fuel
  induction fuel with
  | zero => intro m finals; rfl
  | succ f ih =>
    intro m finals
    simp only [aggLoop]
    rw [aggFoldl_zeroSentinel]
    rw [ih]

/-- Claim C1 (amended): replacing `interestRate = 1.2` by `interestRate = 0`
leaves balance reconstruction, single-debt projection and the independent
aggregator unchanged.  (The two strategy simulators are NOT invariant — see
the counterexample: the fixed-cohort simulator computes interest from the raw
rate, and the staggered simulator orders debts by the raw rate under
avalanche/smart.) -/
theorem claim_C1_sentinel_invariance (today : SDate) (d : Debt) (debts : List Debt) :
    calculateCurrentBalance today (zeroSentinel d) = calculateCurrentBalance today d ∧
    calculateDebtProjection today (zeroSentinel d) = calculateDebtProjection today d ∧
    calculateTotalDebtProjection today (debts.map zeroSentinel)
      = calculateTotalDebtProjection today debts := by
  refine ⟨calculateCurrentBalance_zeroSentinel today d,
    calculateDebtProjection_zeroSentinel today d, ?_⟩
  simp only [calculateTotalDebtProjection]
  rw [includedList_map_zeroSentinel]
  have hemp : ((includedList debts).map zeroSentinel).isEmpty = (includedList debts).isEmpty := by
    cases includedList debts <;> rfl
  rw [hemp]
  have hmax : ((includedList debts).map zeroSentinel).map
        (fun d => (calculateDebtProjection today d).length)
      = (includedList debts).map (fun d => (calculateDebtProjection today d).length) := by
    rw [List.map_map]
    exact List.map_congr_left fun a _ => by
      simp [Function.comp, calculateDebtProjection_zeroSentinel]
  rw [hmax, aggLoop_zeroSentinel]

/-- Counterexample to C1 as stated: a single 1.2%-rate debt runs differently
through the fixed-cohort simulator than its 0%-rate twin (month 1 leaves
1101.2 vs 1100), and a 1.2%-rate debt paired with a 0.6% one runs differently
through the staggered simulator under `avalanche` (the raw-rate sort focuses a
different debt in month 1: 1800 vs 1800.5 remaining). -/
theorem claim_C1_counterexample :
    (calculateSnowballProjection sampleToday [debtSentinel] none .snowball 5).head?.map
        (fun e => e.remainingDebt) ≠
      (calculateSnowballProjection sampleToday [debtZero] none .snowball 5).head?.map
        (fun e => e.remainingDebt) ∧
    (calculateCompleteDebtTimeline [debtTLSentinel, debtTLMid] (some .avalanche) none 5).head?.map
        (fun e => e.remainingDebt) ≠
      (calculateCompleteDebtTimeline [debtTLZero, debtTLMid] (some .avalanche) none 5).head?.map
        (fun e => e.remainingDebt) := by
  constructor
  · with_unfolding_all decide
  · with_unfolding_all decide

/-!  C2: when the ordering strategy is (re)applied. -/

theorem snowStep_id (f : Bool) (left : ℚ) (d : SBDebt) : (snowStep f left d).1.id = d.id := by
  simp only [snowStep]
  split_ifs <;> rfl

theorem snowMonth_ids (l : List SBDebt) : ∀ (f : Bool) (left : ℚ),
    ((snowMonth f l left).1).map (fun d => d.id) = l.map (fun d => d.id) := by
  induction l with
  | nil => intro f left; rfl
  | cons d rest ih =>
    intro f left
    simp only [snowMonth, List.map_cons]
    rw [snowStep_id, ih]

theorem snowAdvance_ids_sublist (budget : ℚ) (l : List SBDebt) :
    ((snowAdvance budget l).map (fun d => d.id)).Sublist (l.map (fun d => d.id)) := by
  unfold snowAdvance
  have h := (List.filter_sublist (l := (snowMonth true l budget).1)
    (p := fun d => decide (0.01 < d.currentBalance))).map (fun d => d.id)
  rw [snowMonth_ids] at h
  exact h

theorem snowAdvance_iterate_ids_sublist (budget : ℚ) :
    ∀ (n : ℕ) (l : List SBDebt),
      (((snowAdvance budget)^[n] l).map (fun d => d.id)).Sublist (l.map (fun d => d.id)) := by
  intro n
  induction n with
  | zero => intro l; simp
  | succ k ih =>
    intro l
    rw [Function.iterate_succ_apply]
    exact (ih (snowAdvance budget l)).trans (snowAdvance_ids_sublist budget l)

/-- Claim C2 (amended): the staggered simulator applies the chosen ordering to
the active set each month — each month's allocation list is sorted by the
strategy key (stated for snowball/avalanche/cashflow) — but the fixed-cohort
simulator sorts only once, before its loop: after any number of simulated
months its active list (hence its processing order) is a subsequence of the
one-time strategy-sorted cohort, never re-sorted. -/
theorem claim_C2_monthly_resort (today : SDate) (debts : List Debt) (ob : Option ℚ)
    (strategy : PaymentStrategy) (thr : ℚ) (n : ℕ) (states : List TLState) :
    ((((snowAdvance (pickBudget ob
            (snowballMinPayments (sortByStrategy strategy thr (snowballCohort today debts)))))^[n])
        (sortByStrategy strategy thr (snowballCohort today debts))).map (fun d => d.id)).Sublist
      ((sortByStrategy strategy thr (snowballCohort today debts)).map (fun d => d.id)) ∧
    List.Sorted (ratKeyLe fun p => p.2.remainingBalance) (tlMonthList .snowball thr states) ∧
    List.Sorted (ratKeyGe fun p => p.2.debt.interestRate) (tlMonthList .avalanche thr states) ∧
    List.Sorted (ratKeyGe fun p => p.2.debt.monthlyPayment.getD 0)
      (tlMonthList .cashflow thr states) :=
  ⟨snowAdvance_iterate_ids_sublist _ n _,
   List.sorted_insertionSort _ _, List.sorted_insertionSort _ _, List.sorted_insertionSort _ _⟩

/-- Counterexample to C2 as stated: on three concrete debts under `snowball`,
the source's once-sorted simulation and the spec's re-sort-every-month variant
diverge at month 3 (remaining 253.1 vs 254.671): after month 2 the third
debt's balance (155) has dropped below the second's (199), so a monthly
re-sort would focus a different debt. -/
theorem claim_C2_counterexample :
    ((calculateSnowballProjection sampleToday [debtSlowA, debtSlowB, debtFastC]
          none .snowball 5).get? 2).map (fun e => e.remainingDebt) ≠
      ((snowballProjectionResorted sampleToday [debtSlowA, debtSlowB, debtFastC]
          none .snowball 5).get? 2).map (fun e => e.remainingDebt) := by
  with_unfolding_all decide

/-!  C5: the independent aggregator's carry-forward policy. -/

theorem cdp_chain (today : SDate) (d : Debt) (hr : 0 ≤ d.interestRate) :
    List.Chain' ProjMono (calculateDebtProjection today d) := by
  have hmr : 0 ≤ adjustRate d.interestRate / 100 / 12 := by
    unfold adjustRate
    split
    · norm_num
    · positivity
  simp only [calculateDebtProjection]
  split
  · simp
  · exact (cdpLoop_chain _ _ hmr 600 today 0 (startingBalance today d) 0 0).1

theorem cdp_mono_get (today : SDate) (d : Debt) (hr : 0 ≤ d.interestRate)
    {i j : ℕ} (hi : i < (calculateDebtProjection today d).length)
    (hj : j < (calculateDebtProjection today d).length) (hij : i ≤ j) :
    ProjMono ((calculateDebtProjection today d).get ⟨i, hi⟩)
      ((calculateDebtProjection today d).get ⟨j, hj⟩) := by
  rcases Nat.lt_or_ge i j with hlt | hge
  · exact (List.pairwise_iff_get.1 (List.chain'_iff_pairwise.1 (cdp_chain today d hr)))
      ⟨i, hi⟩ ⟨j, hj⟩ hlt
  · have : i = j := le_antisymm hij hge
    subst this
    exact ⟨le_rfl, le_rfl, le_rfl⟩

theorem debtContribTriple_mono (today : SDate) (d : Debt) (hr : 0 ≤ d.interestRate)
    (m : ℕ) (hm : 1 ≤ m) :
    (debtContribTriple today m d).2.1 ≤ (debtContribTriple today (m + 1) d).2.1 ∧
    (debtContribTriple today m d).2.2 ≤ (debtContribTriple today (m + 1) d).2.2 := by
  cases hq : (calculateDebtProjection today d).get? m with
  | some b =>
    have hjlt : m < (calculateDebtProjection today d).length :=
      (List.get?_eq_some.1 hq).1
    have hilt : m - 1 < (calculateDebtProjection today d).length := by omega
    have hp : (calculateDebtProjection today d).get? (m - 1) =
        some ((calculateDebtProjection today d).get ⟨m - 1, hilt⟩) :=
      List.get?_eq_get hilt
    have hq2 : (calculateDebtProjection today d).get? m =
        some ((calculateDebtProjection today d).get ⟨m, hjlt⟩) :=
      List.get?_eq_get hjlt
    have hb : (calculateDebtProjection today d).get ⟨m, hjlt⟩ = b := by
      rw [hq] at hq2
      exact (Option.some.inj hq2).symm
    have hmono := cdp_mono_get today d hr hilt hjlt (by omega)
    simp only [debtContribTriple, Nat.add_sub_cancel, hp, hq]
    rw [← hb]
    exact ⟨hmono.2.1, hmono.2.2⟩
  | none =>
    have hlen : (calculateDebtProjection today d).length ≤ m := List.get?_eq_none.1 hq
    cases hp : (calculateDebtProjection today d).get? (m - 1) with
    | some a =>
      have hilt : m - 1 < (calculateDebtProjection today d).length :=
        (List.get?_eq_some.1 hp).1
      have hlast : (calculateDebtProjection today d).getLast? =
          (calculateDebtProjection today d).get? (m - 1) := by
        rw [List.getLast?_eq_get?]
        congr 1
        omega
      simp only [debtContribTriple, Nat.add_sub_cancel, hp, hq, hlast]
      exact ⟨le_rfl, le_rfl⟩
    | none =>
      simp only [debtContribTriple, Nat.add_sub_cancel, hp, hq]
      cases hl : (calculateDebtProjection today d).getLast? with
      | some e => simp [hl]
      | none => simp [hl]

theorem canonFinal_stable (today : SDate) (d : Debt) (m : ℕ) (hm : 1 ≤ m)
    (hq : (calculateDebtProjection today d).get? (m - 1) = none) :
    canonFinal today (m - 1) d = canonFinal today m d := by
  unfold canonFinal
  have hlen : (calculateDebtProjection today d).length ≤ m - 1 := List.get?_eq_none.1 hq
  rw [if_neg (by omega : ¬ m = 0)]
  by_cases h0 : m - 1 = 0
  · rw [if_pos h0]
    have hnil : calculateDebtProjection today d = [] :=
      List.length_eq_zero.1 (le_antisymm (h0 ▸ hlen) (Nat.zero_le _))
    simp [hq, hnil]
  · rw [if_neg h0]
    cases hp : (calculateDebtProjection today d).get? (m - 1 - 1) with
    | some a =>
      have hilt : m - 1 - 1 < (calculateDebtProjection today d).length :=
        (List.get?_eq_some.1 hp).1
      have hlast : (calculateDebtProjection today d).getLast? =
          (calculateDebtProjection today d).get? (m - 1 - 1) := by
        rw [List.getLast?_eq_get?]
        congr 1
        omega
      simp only [hlast, hp, hq]
    | none =>
      simp only [hp, hq]

theorem aggStep_spec (today : SDate) (m : ℕ) (hm : 1 ≤ m) (d : Debt)
    (rem paid int : ℚ) (finals : String → Option (ℚ × ℚ))
    (hf : finals d.id = canonFinal today (m - 1) d) :
    aggStep today m (rem, paid, int, finals) d =
      (rem + (debtContribTriple today m d).1,
       paid + (debtContribTriple today m d).2.1,
       int + (debtContribTriple today m d).2.2,
       fun k => if k = d.id then canonFinal today m d else finals k) := by
  cases hq : (calculateDebtProjection today d).get? (m - 1) with
  | some md =>
    have hcf : canonFinal today m d = some (md.totalPaid, md.interestPaid) := by
      unfold canonFinal
      rw [if_neg (by omega : ¬ m = 0)]
      simp only [hq]
    simp only [aggStep, debtContribTriple, hq, hcf]
  | none =>
    have hstable := canonFinal_stable today d m hm hq
    have hcf : canonFinal today m d =
        match (calculateDebtProjection today d).getLast? with
        | some e => some (e.totalPaid, e.interestPaid)
        | none => none := by
      unfold canonFinal
      rw [if_neg (by omega : ¬ m = 0)]
      simp only [hq]
    have hfinals : (fun k => if k = d.id then canonFinal today m d else finals k) = finals := by
      funext k
      split
      · rename_i hk
        rw [hk, hf, hstable]
      · rfl
    cases hl : (calculateDebtProjection today d).getLast? with
    | some e =>
      have hfd : finals d.id = some (e.totalPaid, e.interestPaid) := by
        rw [hf, hstable, hcf, hl]
      simp only [aggStep, debtContribTriple, hq, hl, hfd, hfinals]
      simp
    | none =>
      have hfd : finals d.id = none := by
        rw [hf, hstable, hcf, hl]
      simp only [aggStep, debtContribTriple, hq, hl, hfd, hfinals]
      simp

theorem aggFoldl_spec (today : SDate) (m : ℕ) (hm : 1 ≤ m) :
    ∀ (l : List Debt) (rem paid int : ℚ) (finals : String → Option (ℚ × ℚ)),
      (l.map (fun d => d.id)).Nodup →
      (∀ d ∈ l, finals d.id = canonFinal today (m - 1) d) →
      ∃ finals2,
        l.foldl (aggStep today m) (rem, paid, int, finals) =
          (rem + (l.map (fun d => (debtContribTriple today m d).1)).sum,
           paid + (l.map (fun d => (debtContribTriple today m d).2.1)).sum,
           int + (l.map (fun d => (debtContribTriple today m d).2.2)).sum,
           finals2) ∧
        (∀ d ∈ l, finals2 d.id = canonFinal today m d) ∧
        (∀ k, k ∉ l.map (fun d => d.id) → finals2 k = finals k) := by
  intro l
  induction l with
  | nil =>
    intro rem paid int finals _ _
    exact ⟨finals, by simp, by simp, fun k _ => rfl⟩
  | cons d rest ih =>
    intro rem paid int finals hnd hf
    have hstep := aggStep_spec today m hm d rem paid int finals (hf d (List.mem_cons_self d rest))
    simp only [List.map_cons, List.nodup_cons] at hnd
    obtain ⟨hid, hndr⟩ := hnd
    have hf1 : ∀ d' ∈ rest,
        (fun k => if k = d.id then canonFinal today m d else finals k) d'.id
          = canonFinal today (m - 1) d' := by
      intro d' hd'
      have hne : d'.id ≠ d.id := fun h =>
        hid (h ▸ List.mem_map_of_mem (fun x => x.id) hd')
      simp only [if_neg hne]
      exact hf d' (List.mem_cons_of_mem d hd')
    obtain ⟨finals2, heq, hmem, hoff⟩ := ih (rem + (debtContribTriple today m d).1)
      (paid + (debtContribTriple today m d).2.1) (int + (debtContribTriple today m d).2.2)
      (fun k => if k = d.id then canonFinal today m d else finals k) hndr hf1
    refine ⟨finals2, ?_, ?_, ?_⟩
    · rw [List.foldl_cons, hstep, heq]
      simp only [List.map_cons, List.sum_cons, add_assoc]
    · intro d' hd'
      rcases List.mem_cons.1 hd' with rfl | hd'r
      · rw [hoff d'.id hid]
        simp
      · exact hmem d' hd'r
    · intro k hk
      simp only [List.map_cons, List.mem_cons, not_or] at hk
      rw [hoff k hk.2]
      simp [if_neg hk.1]

theorem aggLoop_spec (today : SDate) (l : List Debt)
    (hnd : (l.map (fun d => d.id)).Nodup) :
    ∀ (fuel m : ℕ), 1 ≤ m → ∀ (finals : String → Option (ℚ × ℚ)),
      (∀ d ∈ l, finals d.id = canonFinal today (m - 1) d) →
      ∀ i : ℕ, i < (aggLoop today l fuel m finals).length →
        (aggLoop today l fuel m finals).get? i = some (aggMonthEntry today l (m + i)) := by
  intro fuel
  induction fuel with
  | zero => intro m hm finals hf i hi; simp [aggLoop] at hi
  | succ f ih =>
    intro m hm finals hf i hi
    obtain ⟨finals2, heq, hmem, _⟩ := aggFoldl_spec today m hm l 0 0 0 finals hnd hf
    have hbody : aggLoop today l (f + 1) m finals =
        if (l.map (fun d => (debtContribTriple today m d).1)).sum = 0
        then [aggMonthEntry today l m]
        else aggMonthEntry today l m :: aggLoop today l f (m + 1) finals2 := by
      simp only [aggLoop]
      rw [heq]
      simp [aggMonthEntry]
    rw [hbody] at hi ⊢
    by_cases hz : (l.map (fun d => (debtContribTriple today m d).1)).sum = 0
    · rw [if_pos hz] at hi ⊢
      have hi0 : i = 0 := by
        simp only [List.length_singleton] at hi
        omega
      subst hi0
      simp
    · rw [if_neg hz] at hi ⊢
      cases i with
      | zero => simp
      | succ j =>
        have hj : j < (aggLoop today l f (m + 1) finals2).length := by
          simp only [List.length_cons] at hi
          omega
        have hrec := ih (m + 1) (by omega) finals2
          (by intro d hd; simpa using hmem d hd) j hj
        rw [List.get?_cons_succ, hrec]
        congr 2
        omega

/-- Claim C5: every month `m` of the independent aggregator equals the sum of
per-debt contributions in which a debt whose own projection is shorter than
`m` contributes 0 to `remainingDebt` and its last recorded totals (carried
forward, not omitted), and consequently aggregate `totalPaid`/`interestPaid`
never decrease month over month.  Hypotheses: distinct debt ids (ids are
UUIDs) and non-negative APRs (form-enforced). -/
theorem claim_C5_carry_forward (today : SDate) (debts : List Debt)
    (hnd : ((includedList debts).map (fun d => d.id)).Nodup)
    (hr : ∀ d ∈ debts, 0 ≤ d.interestRate) :
    (∀ (i : ℕ) (hi : i < (calculateTotalDebtProjection today debts).length),
      (calculateTotalDebtProjection today debts).get ⟨i, hi⟩ =
        aggMonthEntry today (includedList debts) (i + 1)) ∧
    List.Chain' (fun a b => a.totalPaid ≤ b.totalPaid ∧ a.interestPaid ≤ b.interestPaid)
      (calculateTotalDebtProjection today debts) := by
  have hr1 : ∀ d ∈ includedList debts, 0 ≤ d.interestRate := fun d hd =>
    hr d (List.mem_of_mem_filter hd)
  have hget? : ∀ i : ℕ, i < (calculateTotalDebtProjection today debts).length →
      (calculateTotalDebtProjection today debts).get? i =
        some (aggMonthEntry today (includedList debts) (i + 1)) := by
    intro i
    simp only [calculateTotalDebtProjection]
    split
    · intro hi
      simp at hi
    · intro hi
      rw [aggLoop_spec today (includedList debts) hnd _ 1 (by norm_num) (fun _ => none)
        (fun d _ => by simp [canonFinal]) i hi]
      congr 2
      omega
  have hget : ∀ (i : ℕ) (hi : i < (calculateTotalDebtProjection today debts).length),
      (calculateTotalDebtProjection today debts).get ⟨i, hi⟩ =
        aggMonthEntry today (includedList debts) (i + 1) := by
    intro i hi
    have h1 := List.get?_eq_get hi
    rw [hget? i hi] at h1
    exact (Option.some.inj h1).symm
  refine ⟨hget, ?_⟩
  rw [List.chain'_iff_get]
  intro i hilen
  have hi : i < (calculateTotalDebtProjection today debts).length := by omega
  have hi1 : i + 1 < (calculateTotalDebtProjection today debts).length := by omega
  rw [hget i hi, hget (i + 1) hi1]
  constructor
  · apply List.sum_le_sum
    intro d hd
    have := (debtContribTriple_mono today d (hr1 d hd) (i + 1) (by omega)).1
    simpa using this
  · apply List.sum_le_sum
    intro d hd
    have := (debtContribTriple_mono today d (hr1 d hd) (i + 1) (by omega)).2
    simpa using this

/-- Witness for C5 on two concrete debts whose projections have different
lengths (3 months and 1 month), so the carry-forward path is exercised. -/
theorem claim_C5_witness :
    ((includedList [debtW1, debtW2]).map (fun d => d.id)).Nodup ∧
      List.Chain' (fun a b => a.totalPaid ≤ b.totalPaid ∧ a.interestPaid ≤ b.interestPaid)
        (calculateTotalDebtProjection sampleToday [debtW1, debtW2]) :=
  ⟨by with_unfolding_all decide,
   (claim_C5_carry_forward sampleToday [debtW1, debtW2] (by with_unfolding_all decide)
      (by intro d hd; fin_cases hd <;> with_unfolding_all decide)).2⟩

end DebtManager
